import Mathlib

/-!
# SKU allocation core of `maro-shopping-sku-system`

Shallow embedding of the routes the specification's claims are about:

* `POST /api/inventory` (SKU construction, per-key sequence numbering,
  validation, persistence) — `allocateStep` / `allocatePOST`;
* `DELETE /api/inventory/[sku]` — `deleteInventorySku`;
* `POST /api/code-library/[category]` — `codeLibraryPOST`;
* `DELETE /api/code-library/[category]/[code]` — `codeLibraryDELETE`.

The Prisma database is modelled as explicit lists (`DB`); an HTTP error
response is modelled as `Except.error (status, message)` and performs no
write, matching the routes, which return error responses before any
`prisma.*.create`/`delete` call and on a thrown persistence error.
-/

/-- JS `s.padStart(2, '0')`: pad on the left with `'0'` up to length 2. -/
def padStart2 (s : String) : String :=
  if 2 ≤ s.length then s else if s.length = 1 then "0" ++ s else "00"

/-- Decimal value of the leading digit run of a character list
(accumulator form), stopping at the first non-digit. -/
def parseDigits : List Char → Nat → Nat
  | [], acc => acc
  | c :: cs, acc => if c.isDigit then parseDigits cs (acc * 10 + (c.toNat - 48)) else acc

/-- Models `parseInt(s, 10)` on the strings this system feeds it — the
stored sequence numbers, which are always non-empty decimal digit strings
(invariant `WFRec`), on which JS `parseInt` returns exactly this value. -/
def parseIntDec (s : String) : Nat := parseDigits s.data 0

/-- JS `s.startsWith(key)` / the Prisma `startsWith` filter. -/
def startsWithStr (s key : String) : Bool := key.data.isPrefixOf s.data

/-- Calendar-date components as JS `new Date(isoDate)` exposes them on a
server whose clock runs at UTC: `getFullYear()`, `getMonth() + 1` (human
month), `getDate()`. -/
structure PDate where
  year : Nat
  month : Nat
  day : Nat
deriving DecidableEq

/-- Component ranges of a parsed calendar date within the century the
YYMMDD segment is defined for (the spec scopes its ordering guarantee to
"within a century"). -/
def ValidPDate (d : PDate) : Prop :=
  2000 ≤ d.year ∧ d.year ≤ 2099 ∧ 1 ≤ d.month ∧ d.month ≤ 12 ∧ 1 ≤ d.day ∧ d.day ≤ 31

instance (d : PDate) : Decidable (ValidPDate d) := by
  unfold ValidPDate; infer_instance

/-- Source (inventory POST route):
`String(date.getFullYear()).slice(2) + String(date.getMonth() + 1).padStart(2, '0') + String(date.getDate()).padStart(2, '0')`. -/
def mkDateCode (d : PDate) : String :=
  (Nat.repr d.year).drop 2 ++ padStart2 (Nat.repr d.month) ++ padStart2 (Nat.repr d.day)

/-- A row of the `Type` table (`code` is `@unique`). -/
structure TypeEntry where
  code : String
  name : String
deriving DecidableEq

/-- A row of the `Color` table. -/
structure ColorEntry where
  code : String
  name : String
  hexValue : Option String
deriving DecidableEq

/-- A row of the `Pattern` table. -/
structure PatternEntry where
  code : String
  name : String
deriving DecidableEq

/-- A row of the `Size` table (`abbr` embeds the source field `abbrev`,
which is a reserved word here). -/
structure SizeEntry where
  code : String
  name : String
  abbr : String
  sortOrder : Nat
deriving DecidableEq

/-- A row of the `Inventory` table (`sku` is the primary key). -/
structure InvRecord where
  sku : String
  typeCode : String
  colorCode : String
  patternCode : String
  sizeCode : String
  dateCode : String
  sequenceNum : String
  displayName : String
  purchaseDate : PDate
  purchaseCost : Rat
  sellingPrice : Rat
deriving DecidableEq

/-- The Prisma database: the four attribute-catalog tables and the
inventory ledger. -/
structure DB where
  types : List TypeEntry
  colors : List ColorEntry
  patterns : List PatternEntry
  sizes : List SizeEntry
  inventory : List InvRecord
deriving DecidableEq

/-- JSON body consumed by `POST /api/inventory`. The route only ever
tests these fields for JS truthiness before using them, so an absent
field and its falsy stand-in behave identically and absence is modelled
as `""` for the code strings, `none` for the date and `0` for the
amounts (`!0` and `!""` are true in JS, exactly like `!undefined`). -/
structure AllocReq where
  typeCode : String
  colorCode : String
  patternCode : String
  sizeCode : String
  purchaseDate : Option PDate
  purchaseCost : Rat
  sellingPrice : Rat
deriving DecidableEq

/-- The base key:
`` `${typeCode}${colorCode}${patternCode}${sizeCode}${dateCode}` ``. -/
def reqKey (req : AllocReq) (d : PDate) : String :=
  req.typeCode ++ req.colorCode ++ req.patternCode ++ req.sizeCode ++ mkDateCode d

/-- `prisma.inventory.findMany({ where: { sku: { startsWith: baseKey } } })`. -/
def matching (db : DB) (key : String) : List InvRecord :=
  db.inventory.filter (fun r => startsWithStr r.sku key)

/-- `Math.max(...existingItems.map(item => parseInt(item.sequenceNum, 10)))`
(order of the query result is irrelevant to the maximum). -/
def maxSeq (l : List InvRecord) : Nat :=
  (l.map (fun r => parseIntDec r.sequenceNum)).foldr max 0

/-- Sequence-number computation of the inventory POST route: `"01"` when no
existing item matches the base key; otherwise the numeric maximum of the
parsed sequence numbers plus one, zero-padded — or `none` (the cap error)
when that maximum is already at least 99. -/
def nextSeq (l : List InvRecord) : Option String :=
  if l.isEmpty then some "01"
  else if 99 ≤ maxSeq l then none
  else some (padStart2 (Nat.repr (maxSeq l + 1)))

/-- The four `prisma.<table>.findUnique({ where: { code } })` catalog
lookups; `none` when any of the four codes does not resolve. -/
def resolveAll (db : DB) (req : AllocReq) :
    Option (TypeEntry × ColorEntry × PatternEntry × SizeEntry) :=
  match db.types.find? (fun t => t.code == req.typeCode),
        db.colors.find? (fun c => c.code == req.colorCode),
        db.patterns.find? (fun p => p.code == req.patternCode),
        db.sizes.find? (fun s => s.code == req.sizeCode) with
  | some t, some c, some p, some s => some (t, c, p, s)
  | _, _, _, _ => none

/-- `` `${type.name}, ${color.name} ${pattern.name}, ${size.abbrev}` ``. -/
def mkDisplayName (t : TypeEntry) (c : ColorEntry) (p : PatternEntry) (s : SizeEntry) : String :=
  t.name ++ ", " ++ c.name ++ " " ++ p.name ++ ", " ++ s.abbr

/-- The JS-truthiness guard of the inventory POST route. -/
def MissingFields (req : AllocReq) : Prop :=
  req.typeCode = "" ∨ req.colorCode = "" ∨ req.patternCode = "" ∨ req.sizeCode = "" ∨
    req.purchaseDate = none ∨ req.purchaseCost = 0 ∨ req.sellingPrice = 0

instance (req : AllocReq) : Decidable (MissingFields req) := by
  unfold MissingFields; infer_instance

def mkItem (req : AllocReq) (d : PDate) (seqNum : String)
    (t : TypeEntry) (c : ColorEntry) (p : PatternEntry) (s : SizeEntry) : InvRecord :=
  { sku := reqKey req d ++ seqNum, typeCode := req.typeCode, colorCode := req.colorCode,
    patternCode := req.patternCode, sizeCode := req.sizeCode,
    dateCode := mkDateCode d, sequenceNum := seqNum,
    displayName := mkDisplayName t c p s,
    purchaseDate := d, purchaseCost := req.purchaseCost,
    sellingPrice := req.sellingPrice }

/-- `POST /api/inventory`, with the read snapshot (`dbR`, used by the
`findMany` sequence query and the catalog lookups) separated from the
write snapshot (`dbW`, against which the primary-key constraint of
`prisma.inventory.create` is checked) so that a concurrent write landing
between the route's read and its insert is expressible. A rejected insert
is what the route's `catch` turns into the 500 response. Sequential calls
are `allocatePOST`, where both snapshots coincide. -/
def allocateStep (dbR dbW : DB) (req : AllocReq) : Except (Nat × String) (InvRecord × DB) :=
  if MissingFields req then
    .error (400, "Missing required fields")
  else
    match req.purchaseDate with
    | none => .error (400, "Missing required fields")
    | some d =>
      match nextSeq (matching dbR (reqKey req d)) with
      | none => .error (400, "Maximum 99 items with same attributes per day reached")
      | some seqNum =>
        match resolveAll dbR req with
        | none => .error (400, "Invalid code(s) provided")
        | some (t, c, p, s) =>
          if dbW.inventory.any (fun r => r.sku == reqKey req d ++ seqNum) then
            .error (500, "Failed to create inventory item")
          else
            .ok (mkItem req d seqNum t c p s,
              { dbW with inventory := mkItem req d seqNum t c p s :: dbW.inventory })

/-- A sequential `POST /api/inventory` call: read and write snapshots
coincide. -/
def allocatePOST (db : DB) (req : AllocReq) : Except (Nat × String) (InvRecord × DB) :=
  allocateStep db db req

/-- `DELETE /api/inventory/[sku]`: `prisma.inventory.delete` removes the
record with that primary key, and throws (caught as a 500 response) when
none exists. -/
def deleteInventorySku (db : DB) (sku : String) : Except (Nat × String) DB :=
  if db.inventory.any (fun r => r.sku == sku) then
    .ok { db with inventory := db.inventory.filter (fun r => r.sku != sku) }
  else
    .error (500, "Failed to delete inventory item")

/-- The route's `['types', 'colors', 'patterns', 'sizes'].includes(category)`. -/
def validCategory (cat : String) : Bool :=
  cat == "types" || cat == "colors" || cat == "patterns" || cat == "sizes"

/-- `modelMap[category].findUnique({ where: { code } })` is non-null. -/
def catHasCode (db : DB) (cat code : String) : Bool :=
  match cat with
  | "types" => (db.types.find? (fun t => t.code == code)).isSome
  | "colors" => (db.colors.find? (fun c => c.code == code)).isSome
  | "patterns" => (db.patterns.find? (fun p => p.code == code)).isSome
  | "sizes" => (db.sizes.find? (fun s => s.code == code)).isSome
  | _ => false

/-- JS `hexValue || null`: an absent or empty hex string is stored as null. -/
def jsOrNull (o : Option String) : Option String :=
  match o with
  | some s => if s = "" then none else some s
  | none => none

/-- JS `abbrev || code`: fall back to the code when the abbreviation is
absent or empty. -/
def jsOrDefault (o : Option String) (dflt : String) : String :=
  match o with
  | some s => if s = "" then dflt else s
  | none => none.getD dflt

/-- `POST /api/code-library/[category]`: required-field check, exact
length-2 check, category check, per-category duplicate check, then the
category-specific create (sizes get `max sortOrder + 1`). `abbrVal`
carries the body field `abbrev`. -/
def codeLibraryPOST (db : DB) (category code nameVal : String)
    (hexValue abbrVal : Option String) : Except (Nat × String) DB :=
  if code = "" ∨ nameVal = "" then .error (400, "Code and name are required")
  else if ¬ code.length = 2 then .error (400, "Code must be exactly 2 characters")
  else if ¬ validCategory category then .error (400, "Invalid category")
  else if catHasCode db category code then .error (400, "Code already exists")
  else if category = "colors" then
    .ok { db with colors := db.colors ++ [⟨code, nameVal, jsOrNull hexValue⟩] }
  else if category = "sizes" then
    .ok { db with sizes := db.sizes ++
      [⟨code, nameVal, jsOrDefault abbrVal code,
        ((db.sizes.map (fun s => s.sortOrder)).foldr max 0) + 1⟩] }
  else if category = "types" then
    .ok { db with types := db.types ++ [⟨code, nameVal⟩] }
  else
    .ok { db with patterns := db.patterns ++ [⟨code, nameVal⟩] }

/-- `prisma.inventory.count({ where: { [fieldMap[category]]: code } })`. -/
def inUseCount (db : DB) (cat code : String) : Nat :=
  match cat with
  | "types" => (db.inventory.filter (fun r => r.typeCode == code)).length
  | "colors" => (db.inventory.filter (fun r => r.colorCode == code)).length
  | "patterns" => (db.inventory.filter (fun r => r.patternCode == code)).length
  | "sizes" => (db.inventory.filter (fun r => r.sizeCode == code)).length
  | _ => 0

/-- Removal of a catalog row by its unique code. -/
def removeCat (db : DB) (cat code : String) : DB :=
  match cat with
  | "types" => { db with types := db.types.filter (fun t => t.code != code) }
  | "colors" => { db with colors := db.colors.filter (fun c => c.code != code) }
  | "patterns" => { db with patterns := db.patterns.filter (fun p => p.code != code) }
  | "sizes" => { db with sizes := db.sizes.filter (fun s => s.code != code) }
  | _ => db

/-- `DELETE /api/code-library/[category]/[code]`: category check,
in-use check against the inventory, then `modelMap[category].delete`
(which throws, caught as a 500 response, when the code is absent). -/
def codeLibraryDELETE (db : DB) (category code : String) : Except (Nat × String) DB :=
  if ¬ validCategory category then .error (400, "Invalid category")
  else if 0 < inUseCount db category code then
    .error (400, "Cannot delete: " ++ Nat.repr (inUseCount db category code) ++
      " inventory item(s) use this code")
  else if catHasCode db category code then .ok (removeCat db category code)
  else .error (500, "Failed to delete code")

/-- Run a list of sequential allocation calls, collecting the returned
records; `none` as soon as one call fails. -/
def runAllocs (db : DB) : List AllocReq → Option (List InvRecord × DB)
  | [] => some ([], db)
  | req :: rest =>
    match allocatePOST db req with
    | .ok (item, db1) =>
      match runAllocs db1 rest with
      | some (items, db2) => some (item :: items, db2)
      | none => none
    | .error _ => none

/-- The identifiers currently persisted in the ledger. -/
def skus (db : DB) : List String := db.inventory.map (fun r => r.sku)

/-- The numeric value of a record's stored sequence-number string. -/
def seqVal (r : InvRecord) : Nat := parseIntDec r.sequenceNum

/-- Shape of every persisted inventory record: four length-2 codes, a
length-6 date code, a 2-digit zero-padded sequence number in 01..99, and
the SKU being exactly their concatenation. -/
def WFRec (r : InvRecord) : Prop :=
  r.typeCode.length = 2 ∧ r.colorCode.length = 2 ∧
  r.patternCode.length = 2 ∧ r.sizeCode.length = 2 ∧
  r.dateCode.length = 6 ∧
  1 ≤ seqVal r ∧ seqVal r ≤ 99 ∧ r.sequenceNum = padStart2 (Nat.repr (seqVal r)) ∧
  r.sku = r.typeCode ++ r.colorCode ++ r.patternCode ++ r.sizeCode ++ r.dateCode ++ r.sequenceNum

instance (r : InvRecord) : Decidable (WFRec r) := by
  unfold WFRec; infer_instance

/-- Database well-formedness: catalog codes have length 2, every
inventory record is well shaped, and the persisted SKUs are pairwise
distinct (the primary-key invariant). -/
def WF (db : DB) : Prop :=
  (∀ t ∈ db.types, t.code.length = 2) ∧
  (∀ c ∈ db.colors, c.code.length = 2) ∧
  (∀ p ∈ db.patterns, p.code.length = 2) ∧
  (∀ s ∈ db.sizes, s.code.length = 2) ∧
  (∀ r ∈ db.inventory, WFRec r) ∧
  (skus db).Nodup

instance (db : DB) : Decidable (WF db) := by
  unfold WF; infer_instance

/-- Catalog-shape invariant of claim C10: every stored code has length
exactly 2 and codes are unique within their category. -/
def CatWF (db : DB) : Prop :=
  (∀ t ∈ db.types, t.code.length = 2) ∧
  (∀ c ∈ db.colors, c.code.length = 2) ∧
  (∀ p ∈ db.patterns, p.code.length = 2) ∧
  (∀ s ∈ db.sizes, s.code.length = 2) ∧
  (db.types.map (fun t => t.code)).Nodup ∧
  (db.colors.map (fun c => c.code)).Nodup ∧
  (db.patterns.map (fun p => p.code)).Nodup ∧
  (db.sizes.map (fun s => s.code)).Nodup

instance (db : DB) : Decidable (CatWF db) := by
  unfold CatWF; infer_instance

instance {e a : Type} [DecidableEq e] [DecidableEq a] : DecidableEq (Except e a)
  | .error x, .error y =>
    if h : x = y then .isTrue (by rw [h]) else .isFalse (by intro hc; cases hc; exact h rfl)
  | .error x, .ok y => .isFalse (by intro hc; cases hc)
  | .ok x, .error y => .isFalse (by intro hc; cases hc)
  | .ok x, .ok y =>
    if h : x = y then .isTrue (by rw [h]) else .isFalse (by intro hc; cases hc; exact h rfl)

theorem strExt {s t : String} (h : s.data = t.data) : s = t := by
  cases s; cases t; exact congrArg String.mk h

theorem data_append (a b : String) : (a ++ b).data = a.data ++ b.data := by
  cases a; cases b; rfl

theorem length_eq_data (s : String) : s.length = s.data.length := rfl

theorem strAppend_cancel {a b c d : String} (h : a ++ b = c ++ d)
    (hl : a.length = c.length) : a = c ∧ b = d := by
  have hdata : a.data ++ b.data = c.data ++ d.data := by
    rw [← data_append, ← data_append, h]
  have hll : a.data.length = c.data.length := hl
  have := List.append_inj hdata hll
  exact ⟨strExt this.1, strExt this.2⟩

theorem startsWithStr_append (k t : String) : startsWithStr (k ++ t) k = true := by
  unfold startsWithStr
  rw [data_append]
  exact List.isPrefixOf_iff_prefix.mpr ⟨t.data, rfl⟩

theorem startsWithStr_elim {s k : String} (h : startsWithStr s k = true) :
    ∃ t, s = k ++ t := by
  unfold startsWithStr at h
  obtain ⟨t, ht⟩ := List.isPrefixOf_iff_prefix.mp h
  refine ⟨⟨t⟩, strExt ?_⟩
  rw [data_append, ht]

theorem pad_repr_len_ball : ∀ i : Fin 100, (padStart2 (Nat.repr i.val)).length = 2 := by decide

theorem padStart2_repr_length {n : Nat} (h : n ≤ 99) : (padStart2 (Nat.repr n)).length = 2 :=
  pad_repr_len_ball ⟨n, by omega⟩

theorem parse_pad_ball : ∀ i : Fin 100, parseIntDec (padStart2 (Nat.repr i.val)) = i.val := by
  decide

theorem parseIntDec_padStart2 {n : Nat} (h : n ≤ 99) :
    parseIntDec (padStart2 (Nat.repr n)) = n :=
  parse_pad_ball ⟨n, by omega⟩

theorem padStart2_repr_inj {m n : Nat} (hm : m ≤ 99) (hn : n ≤ 99)
    (h : padStart2 (Nat.repr m) = padStart2 (Nat.repr n)) : m = n := by
  have := congrArg parseIntDec h
  rwa [parseIntDec_padStart2 hm, parseIntDec_padStart2 hn] at this

theorem year_repr_len_ball : ∀ n < 100, (Nat.repr (2000 + n)).length = 4 := by decide

theorem repr_year_length {y : Nat} (h1 : 2000 ≤ y) (h2 : y ≤ 2099) :
    (Nat.repr y).length = 4 := by
  obtain ⟨k, rfl⟩ : ∃ k, y = 2000 + k := ⟨y - 2000, by omega⟩
  exact year_repr_len_ball k (by omega)

theorem mkDateCode_length {d : PDate} (hv : ValidPDate d) : (mkDateCode d).length = 6 := by
  obtain ⟨h1, h2, h3, h4, h5, h6⟩ := hv
  unfold mkDateCode
  rw [String.length_append, String.length_append]
  have hy : ((Nat.repr d.year).drop 2).length = 2 := by
    rw [length_eq_data, String.data_drop, List.length_drop, ← length_eq_data,
      repr_year_length h1 h2]
  rw [hy, padStart2_repr_length (by omega : d.month ≤ 99),
    padStart2_repr_length (by omega : d.day ≤ 99)]

theorem maxSeq_cons (r : InvRecord) (l : List InvRecord) :
    maxSeq (r :: l) = max (parseIntDec r.sequenceNum) (maxSeq l) := rfl

theorem le_maxSeq : ∀ {l : List InvRecord} {r : InvRecord},
    r ∈ l → parseIntDec r.sequenceNum ≤ maxSeq l := by
  intro l
  induction l with
  | nil => intro r h; cases h
  | cons a l ih =>
    intro r h
    rw [maxSeq_cons]
    rcases List.mem_cons.mp h with rfl | h2
    · exact Nat.le_max_left _ _
    · exact Nat.le_trans (ih h2) (Nat.le_max_right _ _)

theorem nextSeq_eq_some {l : List InvRecord} {sn : String} (h : nextSeq l = some sn) :
    (l = [] ∧ sn = "01") ∨
      (l ≠ [] ∧ maxSeq l ≤ 98 ∧ sn = padStart2 (Nat.repr (maxSeq l + 1))) := by
  unfold nextSeq at h
  by_cases he : l.isEmpty
  · rw [if_pos he] at h
    exact Or.inl ⟨List.isEmpty_iff.mp he, (Option.some_inj.mp h).symm⟩
  · rw [if_neg he] at h
    by_cases hm : 99 ≤ maxSeq l
    · rw [if_pos hm] at h; cases h
    · rw [if_neg hm] at h
      refine Or.inr ⟨fun hnil => he ?_, by omega, (Option.some_inj.mp h).symm⟩
      rw [hnil]; rfl

theorem allocateStep_missing {dbR dbW : DB} {req : AllocReq} (h : MissingFields req) :
    allocateStep dbR dbW req = .error (400, "Missing required fields") := by
  unfold allocateStep
  rw [if_pos h]

theorem allocateStep_cap {dbR dbW : DB} {req : AllocReq} {d : PDate}
    (hmiss : ¬ MissingFields req) (hd : req.purchaseDate = some d)
    (hcap : nextSeq (matching dbR (reqKey req d)) = none) :
    allocateStep dbR dbW req =
      .error (400, "Maximum 99 items with same attributes per day reached") := by
  unfold allocateStep
  rw [if_neg hmiss]
  simp only [hd, hcap]

theorem allocateStep_invalidCodes {dbR dbW : DB} {req : AllocReq} {d : PDate} {sn : String}
    (hmiss : ¬ MissingFields req) (hd : req.purchaseDate = some d)
    (hns : nextSeq (matching dbR (reqKey req d)) = some sn)
    (hres : resolveAll dbR req = none) :
    allocateStep dbR dbW req = .error (400, "Invalid code(s) provided") := by
  unfold allocateStep
  rw [if_neg hmiss]
  simp only [hd, hns, hres]

theorem allocateStep_dup {dbR dbW : DB} {req : AllocReq} {d : PDate} {sn : String}
    {tcps : TypeEntry × ColorEntry × PatternEntry × SizeEntry}
    (hmiss : ¬ MissingFields req) (hd : req.purchaseDate = some d)
    (hns : nextSeq (matching dbR (reqKey req d)) = some sn)
    (hres : resolveAll dbR req = some tcps)
    (hdup : dbW.inventory.any (fun r => r.sku == reqKey req d ++ sn) = true) :
    allocateStep dbR dbW req = .error (500, "Failed to create inventory item") := by
  unfold allocateStep
  rw [if_neg hmiss]
  obtain ⟨t, c, p, s⟩ := tcps
  simp only [hd, hns, hres, hdup, if_true]

theorem allocateStep_ok {dbR dbW : DB} {req : AllocReq} {item : InvRecord} {db2 : DB}
    (h : allocateStep dbR dbW req = .ok (item, db2)) :
    ∃ d sn t c p s,
      ¬ MissingFields req ∧
      req.purchaseDate = some d ∧
      nextSeq (matching dbR (reqKey req d)) = some sn ∧
      resolveAll dbR req = some (t, c, p, s) ∧
      dbW.inventory.any (fun r => r.sku == reqKey req d ++ sn) = false ∧
      item = mkItem req d sn t c p s ∧
      db2 = { dbW with inventory := mkItem req d sn t c p s :: dbW.inventory } := by
  unfold allocateStep at h
  by_cases hmiss : MissingFields req
  · rw [if_pos hmiss] at h; cases h
  · rw [if_neg hmiss] at h
    cases hd : req.purchaseDate with
    | none => rw [hd] at h; cases h
    | some d =>
      simp only [hd] at h
      cases hns : nextSeq (matching dbR (reqKey req d)) with
      | none => simp only [hns] at h; cases h
      | some sn =>
        simp only [hns] at h
        cases hres : resolveAll dbR req with
        | none => simp only [hres] at h; cases h
        | some tcps =>
          obtain ⟨t, c, p, s⟩ := tcps
          simp only [hres] at h
          by_cases hdup : dbW.inventory.any (fun r => r.sku == reqKey req d ++ sn) = true
          · rw [if_pos hdup] at h; cases h
          · rw [if_neg hdup] at h
            injection h with hpair
            injection hpair with hitem hdb
            exact ⟨d, sn, t, c, p, s, hmiss, rfl, hns, rfl,
              Bool.eq_false_iff.mpr hdup, hitem.symm, hdb.symm⟩

theorem resolveAll_eq_some {db : DB} {req : AllocReq}
    {t : TypeEntry} {c : ColorEntry} {p : PatternEntry} {s : SizeEntry}
    (h : resolveAll db req = some (t, c, p, s)) :
    db.types.find? (fun x => x.code == req.typeCode) = some t ∧
    db.colors.find? (fun x => x.code == req.colorCode) = some c ∧
    db.patterns.find? (fun x => x.code == req.patternCode) = some p ∧
    db.sizes.find? (fun x => x.code == req.sizeCode) = some s := by
  unfold resolveAll at h
  cases h1 : db.types.find? (fun x => x.code == req.typeCode) with
  | none => rw [h1] at h; cases h
  | some t2 =>
    rw [h1] at h
    cases h2 : db.colors.find? (fun x => x.code == req.colorCode) with
    | none => rw [h2] at h; cases h
    | some c2 =>
      rw [h2] at h
      cases h3 : db.patterns.find? (fun x => x.code == req.patternCode) with
      | none => rw [h3] at h; cases h
      | some p2 =>
        rw [h3] at h
        cases h4 : db.sizes.find? (fun x => x.code == req.sizeCode) with
        | none => rw [h4] at h; cases h
        | some s2 =>
          rw [h4] at h
          injection h with hq
          injection hq with ht hq
          injection hq with hc hq
          injection hq with hp hs
          rw [← ht, ← hc, ← hp, ← hs]
          exact ⟨rfl, rfl, rfl, rfl⟩

theorem req_code_lengths {db : DB} {req : AllocReq}
    {t : TypeEntry} {c : ColorEntry} {p : PatternEntry} {s : SizeEntry}
    (hwf : WF db) (h : resolveAll db req = some (t, c, p, s)) :
    req.typeCode.length = 2 ∧ req.colorCode.length = 2 ∧
    req.patternCode.length = 2 ∧ req.sizeCode.length = 2 := by
  obtain ⟨h1, h2, h3, h4⟩ := resolveAll_eq_some h
  obtain ⟨hwt, hwc, hwp, hws, _, _⟩ := hwf
  have e1 : t.code = req.typeCode := by simpa using List.find?_some h1
  have e2 : c.code = req.colorCode := by simpa using List.find?_some h2
  have e3 : p.code = req.patternCode := by simpa using List.find?_some h3
  have e4 : s.code = req.sizeCode := by simpa using List.find?_some h4
  refine ⟨?_, ?_, ?_, ?_⟩
  · rw [← e1]; exact hwt t (List.mem_of_find?_eq_some h1)
  · rw [← e2]; exact hwc c (List.mem_of_find?_eq_some h2)
  · rw [← e3]; exact hwp p (List.mem_of_find?_eq_some h3)
  · rw [← e4]; exact hws s (List.mem_of_find?_eq_some h4)

theorem reqKey_length {req : AllocReq} {d : PDate}
    (h1 : req.typeCode.length = 2) (h2 : req.colorCode.length = 2)
    (h3 : req.patternCode.length = 2) (h4 : req.sizeCode.length = 2)
    (hv : ValidPDate d) : (reqKey req d).length = 14 := by
  unfold reqKey
  rw [String.length_append, String.length_append, String.length_append,
    String.length_append, h1, h2, h3, h4, mkDateCode_length hv]

theorem nextSeq_shape {l : List InvRecord} {sn : String} (h : nextSeq l = some sn) :
    ∃ n, 1 ≤ n ∧ n ≤ 99 ∧ sn = padStart2 (Nat.repr n) := by
  rcases nextSeq_eq_some h with ⟨-, rfl⟩ | ⟨-, hle, rfl⟩
  · exact ⟨1, by omega, by omega, by decide⟩
  · exact ⟨maxSeq l + 1, by omega, by omega, rfl⟩

theorem strAppend_five (a b c d e f : String) :
    (a ++ b ++ c ++ d ++ e) ++ f = a ++ b ++ c ++ d ++ e ++ f := by
  simp only [String.append_assoc]

theorem mkItem_WFRec {req : AllocReq} {d : PDate} {sn : String}
    {t : TypeEntry} {c : ColorEntry} {p : PatternEntry} {s : SizeEntry}
    (h1 : req.typeCode.length = 2) (h2 : req.colorCode.length = 2)
    (h3 : req.patternCode.length = 2) (h4 : req.sizeCode.length = 2)
    (hv : ValidPDate d) (hn : ∃ n, 1 ≤ n ∧ n ≤ 99 ∧ sn = padStart2 (Nat.repr n)) :
    WFRec (mkItem req d sn t c p s) := by
  obtain ⟨n, hn1, hn2, rfl⟩ := hn
  have hsv : seqVal (mkItem req d (padStart2 (Nat.repr n)) t c p s) = n := by
    show parseIntDec (padStart2 (Nat.repr n)) = n
    exact parseIntDec_padStart2 hn2
  refine ⟨h1, h2, h3, h4, mkDateCode_length hv, ?_, ?_, ?_, ?_⟩
  · rw [hsv]; exact hn1
  · rw [hsv]; exact hn2
  · rw [hsv]; exact rfl
  · show reqKey req d ++ padStart2 (Nat.repr n) =
      req.typeCode ++ req.colorCode ++ req.patternCode ++ req.sizeCode ++
        mkDateCode d ++ padStart2 (Nat.repr n)
    unfold reqKey
    exact strAppend_five _ _ _ _ _ _

theorem sku_not_mem {db : DB} {k : String}
    (h : db.inventory.any (fun r => r.sku == k) = false) : k ∉ skus db := by
  intro hmem
  obtain ⟨r, hr, hrk⟩ := List.mem_map.mp hmem
  exact absurd (beq_iff_eq.mpr hrk) (List.any_eq_false.mp h r hr)

theorem WF_allocatePOST {db : DB} {req : AllocReq} {item : InvRecord} {db2 : DB}
    (hwf : WF db) (hv : ∀ d, req.purchaseDate = some d → ValidPDate d)
    (h : allocatePOST db req = .ok (item, db2)) :
    WF db2 ∧ WFRec item ∧ item.sku ∉ skus db ∧
      db2.inventory = item :: db.inventory := by
  obtain ⟨d, sn, t, c, p, s, hmiss, hd, hns, hres, hdup, hitem, hdb⟩ := allocateStep_ok h
  obtain ⟨l1, l2, l3, l4⟩ := req_code_lengths hwf hres
  have hvd := hv d hd
  have hrec : WFRec (mkItem req d sn t c p s) :=
    mkItem_WFRec l1 l2 l3 l4 hvd (nextSeq_shape hns)
  have hfresh : (mkItem req d sn t c p s).sku ∉ skus db := sku_not_mem hdup
  subst hitem
  subst hdb
  refine ⟨⟨hwf.1, hwf.2.1, hwf.2.2.1, hwf.2.2.2.1, ?_, ?_⟩, hrec, hfresh, rfl⟩
  · intro r hr
    rcases List.mem_cons.mp hr with rfl | hr2
    · exact hrec
    · exact hwf.2.2.2.2.1 r hr2
  · show (List.map _ (mkItem req d sn t c p s :: db.inventory)).Nodup
    rw [List.map_cons]
    exact List.nodup_cons.mpr ⟨hfresh, hwf.2.2.2.2.2⟩

theorem WF_delete {db : DB} {sk : String} {db2 : DB}
    (hwf : WF db) (h : deleteInventorySku db sk = .ok db2) : WF db2 := by
  unfold deleteInventorySku at h
  by_cases hex : db.inventory.any (fun r => r.sku == sk) = true
  · rw [if_pos hex] at h
    injection h with h2
    subst h2
    refine ⟨hwf.1, hwf.2.1, hwf.2.2.1, hwf.2.2.2.1, ?_, ?_⟩
    · intro r hr
      exact hwf.2.2.2.2.1 r (List.mem_of_mem_filter hr)
    · show (List.map _ (db.inventory.filter _)).Nodup
      exact List.Nodup.sublist ((List.filter_sublist _).map _) hwf.2.2.2.2.2
  · rw [if_neg hex] at h
    cases h

theorem nextSeq_val {l : List InvRecord} {sn : String} (h : nextSeq l = some sn) :
    sn = padStart2 (Nat.repr (maxSeq l + 1)) ∧ maxSeq l + 1 ≤ 99 ∧
      parseIntDec sn = maxSeq l + 1 := by
  rcases nextSeq_eq_some h with ⟨hnil, rfl⟩ | ⟨-, hle, rfl⟩
  · subst hnil
    exact ⟨by decide, by decide, by decide⟩
  · exact ⟨rfl, by omega, parseIntDec_padStart2 (by omega)⟩

theorem matching_insert {db : DB} {item : InvRecord} {K : String}
    (h : startsWithStr item.sku K = true) :
    matching { db with inventory := item :: db.inventory } K = item :: matching db K := by
  unfold matching
  simp only [List.filter_cons, h, if_true]

theorem runAllocs_nodup : ∀ {reqs : List AllocReq} {db : DB}
    {items : List InvRecord} {db2 : DB},
    (skus db).Nodup → runAllocs db reqs = some (items, db2) →
    (skus db2).Nodup ∧ (items.map (fun r => r.sku)).Nodup ∧
      (∀ i ∈ items, i.sku ∉ skus db) ∧ (∀ sk ∈ skus db, sk ∈ skus db2) ∧
      (∀ i ∈ items, i.sku ∈ skus db2) := by
  intro reqs
  induction reqs with
  | nil =>
    intro db items db2 hnd h
    unfold runAllocs at h
    injection h with h2
    injection h2 with hi hdb
    subst hi; subst hdb
    exact ⟨hnd, List.nodup_nil, (by intro i hi; cases hi), fun sk hsk => hsk,
      (by intro i hi; cases hi)⟩
  | cons req rest ih =>
    intro db items db2 hnd h
    unfold runAllocs at h
    cases ha : allocatePOST db req with
    | error e => rw [ha] at h; cases h
    | ok pr =>
      obtain ⟨item, db1⟩ := pr
      simp only [ha] at h
      cases hr : runAllocs db1 rest with
      | none => simp only [hr] at h; cases h
      | some pr2 =>
        obtain ⟨items2, db3⟩ := pr2
        simp only [hr] at h
        injection h with h2
        injection h2 with hi hdb
        subst hi; subst hdb
        obtain ⟨d, sn, t, c, p, s, -, -, -, -, hdup, hitem, hdb1⟩ := allocateStep_ok ha
        have hfresh : item.sku ∉ skus db := by rw [hitem]; exact sku_not_mem hdup
        have hskus1 : skus db1 = item.sku :: skus db := by
          rw [hdb1, hitem]; rfl
        have hnd1 : (skus db1).Nodup := by
          rw [hskus1]; exact List.nodup_cons.mpr ⟨hfresh, hnd⟩
        obtain ⟨ha1, ha2, ha3, ha4, ha5⟩ := ih hnd1 hr
        refine ⟨ha1, ?_, ?_, ?_, ?_⟩
        · rw [List.map_cons]
          refine List.nodup_cons.mpr ⟨?_, ha2⟩
          intro hmem
          obtain ⟨i, hi2, hisku⟩ := List.mem_map.mp hmem
          refine ha3 i hi2 ?_
          rw [hisku, hskus1]
          exact List.mem_cons_self _ _
        · intro i hi2
          rcases List.mem_cons.mp hi2 with rfl | hi3
          · exact hfresh
          · intro hmem
            exact ha3 i hi3 (by rw [hskus1]; exact List.mem_cons_of_mem _ hmem)
        · intro sk hsk
          exact ha4 sk (by rw [hskus1]; exact List.mem_cons_of_mem _ hsk)
        · intro i hi2
          rcases List.mem_cons.mp hi2 with rfl | hi3
          · exact ha4 i.sku (by rw [hskus1]; exact List.mem_cons_self _ _)
          · exact ha5 i hi3

/-- A request aimed at allocation key `K`, carrying a valid parsed date. -/
def ReqKeyed (K : String) (req : AllocReq) : Prop :=
  ∃ d, req.purchaseDate = some d ∧ ValidPDate d ∧ reqKey req d = K

theorem runAllocs_keyed : ∀ {reqs : List AllocReq} {db : DB}
    {items : List InvRecord} {db2 : DB} {K : String},
    WF db → (∀ r ∈ reqs, ReqKeyed K r) →
    runAllocs db reqs = some (items, db2) →
    WF db2 ∧
    items.map (fun r => r.sequenceNum) =
      (List.range' (maxSeq (matching db K) + 1) reqs.length).map
        (fun n => padStart2 (Nat.repr n)) ∧
    maxSeq (matching db2 K) = maxSeq (matching db K) + reqs.length := by
  intro reqs
  induction reqs with
  | nil =>
    intro db items db2 K hwf hk h
    unfold runAllocs at h
    injection h with h2
    injection h2 with hi hdb
    subst hi; subst hdb
    exact ⟨hwf, rfl, rfl⟩
  | cons req rest ih =>
    intro db items db2 K hwf hk h
    unfold runAllocs at h
    cases ha : allocatePOST db req with
    | error e => rw [ha] at h; cases h
    | ok pr =>
      obtain ⟨item, db1⟩ := pr
      simp only [ha] at h
      cases hr : runAllocs db1 rest with
      | none => simp only [hr] at h; cases h
      | some pr2 =>
        obtain ⟨items2, db3⟩ := pr2
        simp only [hr] at h
        injection h with h2
        injection h2 with hi hdb
        subst hi; subst hdb
        obtain ⟨d, hd, hvd, hkey⟩ := hk req (List.mem_cons_self _ _)
        obtain ⟨d2, sn, t, c, p, s, hmiss, hd2, hns, hres, hdup, hitem, hdb1⟩ :=
          allocateStep_ok ha
        have hdd : d2 = d := by
          rw [hd] at hd2
          exact Option.some_inj.mp hd2.symm
        subst hdd
        rw [hkey] at hns
        obtain ⟨hsn, hle, hparse⟩ := nextSeq_val hns
        have hwfstep := WF_allocatePOST hwf
          (fun d3 hd3 => by
            rw [hd] at hd3
            injection hd3 with he
            exact he ▸ hvd) ha
        have hsw : startsWithStr item.sku K = true := by
          rw [hitem]
          show startsWithStr (reqKey req d2 ++ sn) K = true
          rw [hkey]
          exact startsWithStr_append K sn
        have hmatch1 : matching db1 K = item :: matching db K := by
          rw [hdb1, ← hitem]
          exact matching_insert hsw
        have hival : parseIntDec item.sequenceNum = maxSeq (matching db K) + 1 := by
          rw [hitem]
          exact hparse
        have hmax1 : maxSeq (matching db1 K) = maxSeq (matching db K) + 1 := by
          rw [hmatch1, maxSeq_cons, hival]
          exact Nat.max_eq_left (by omega)
        obtain ⟨ihwf, ihseq, ihmax⟩ :=
          ih hwfstep.1 (fun r hr2 => hk r (List.mem_cons_of_mem _ hr2)) hr
        refine ⟨ihwf, ?_, ?_⟩
        · rw [List.map_cons, List.length_cons, List.range'_succ, List.map_cons]
          refine congrArg₂ List.cons ?_ ?_
          · rw [hitem]
            exact hsn
          · rw [ihseq, hmax1]
        · rw [ihmax, hmax1, List.length_cons]
          omega

theorem matched_sku {r : InvRecord} {K : String} (hr : WFRec r)
    (hsw : startsWithStr r.sku K = true) (hK : K.length = 14) :
    r.sku = K ++ r.sequenceNum := by
  obtain ⟨t, hsk⟩ := startsWithStr_elim hsw
  have hconcat := hr.2.2.2.2.2.2.2.2
  have hlen : (r.typeCode ++ r.colorCode ++ r.patternCode ++ r.sizeCode ++
      r.dateCode).length = K.length := by
    rw [String.length_append, String.length_append, String.length_append,
      String.length_append, hr.1, hr.2.1, hr.2.2.1, hr.2.2.2.1, hr.2.2.2.2.1, hK]
  obtain ⟨hbk, hts⟩ := strAppend_cancel (hconcat.symm.trans hsk) hlen
  rw [hconcat, hbk]

theorem matching_count_le {db : DB} {K : String} (hwf : WF db) (hK : K.length = 14) :
    (matching db K).length ≤ 99 := by
  have hsub : (matching db K).Sublist db.inventory := List.filter_sublist _
  have hndsku : ((matching db K).map (fun r => r.sku)).Nodup :=
    List.Nodup.sublist (hsub.map _) hwf.2.2.2.2.2
  have hmem : ∀ r ∈ matching db K, WFRec r ∧ r.sku = K ++ r.sequenceNum := by
    intro r hr
    have hrf : r ∈ db.inventory.filter (fun x => startsWithStr x.sku K) := hr
    have hwr := hwf.2.2.2.2.1 r (List.mem_of_mem_filter hrf)
    have hsw : startsWithStr r.sku K = true := by
      simpa using (List.mem_filter.mp hrf).2
    exact ⟨hwr, matched_sku hwr hsw hK⟩
  have hvals : ((matching db K).map (fun r => seqVal r)).Nodup := by
    have hp : (matching db K).Pairwise (fun a b => a.sku ≠ b.sku) :=
      List.pairwise_map.mp hndsku
    have hp2 : (matching db K).Pairwise (fun a b => seqVal a ≠ seqVal b) := by
      refine hp.imp_of_mem ?_
      intro a b hal hbl hab hseq
      obtain ⟨hwa, hska⟩ := hmem a hal
      obtain ⟨hwb, hskb⟩ := hmem b hbl
      apply hab
      rw [hska, hskb, hwa.2.2.2.2.2.2.2.1, hwb.2.2.2.2.2.2.2.1, hseq]
    exact List.pairwise_map.mpr hp2
  have hbound : ∀ v ∈ (matching db K).map (fun r => seqVal r), v ∈ Finset.Icc 1 99 := by
    intro v hv
    obtain ⟨r, hr, rfl⟩ := List.mem_map.mp hv
    obtain ⟨hwr, -⟩ := hmem r hr
    exact Finset.mem_Icc.mpr ⟨hwr.2.2.2.2.2.1, hwr.2.2.2.2.2.2.1⟩
  have hcard : ((matching db K).map (fun r => seqVal r)).toFinset.card =
      (matching db K).length := by
    rw [List.toFinset_card_of_nodup hvals, List.length_map]
  have hsubf : ((matching db K).map (fun r => seqVal r)).toFinset ⊆ Finset.Icc 1 99 :=
    fun v hv => hbound v (List.mem_toFinset.mp hv)
  have hle := Finset.card_le_card hsubf
  rw [hcard] at hle
  simpa [Nat.card_Icc] using hle

theorem validCategory_cases {cat : String} (h : validCategory cat = true) :
    cat = "types" ∨ cat = "colors" ∨ cat = "patterns" ∨ cat = "sizes" := by
  simp only [validCategory, Bool.or_eq_true, beq_iff_eq] at h
  tauto

theorem codeLibraryPOST_ok {db : DB} {cat code nm : String}
    {hx ab : Option String} {db2 : DB}
    (h : codeLibraryPOST db cat code nm hx ab = .ok db2) :
    ¬(code = "" ∨ nm = "") ∧ code.length = 2 ∧ validCategory cat = true ∧
    catHasCode db cat code = false ∧
    ((cat = "colors" ∧
        db2 = { db with colors := db.colors ++ [⟨code, nm, jsOrNull hx⟩] }) ∨
      (cat = "sizes" ∧
        db2 = { db with sizes := db.sizes ++
          [⟨code, nm, jsOrDefault ab code,
            ((db.sizes.map (fun s => s.sortOrder)).foldr max 0) + 1⟩] }) ∨
      (cat = "types" ∧ db2 = { db with types := db.types ++ [⟨code, nm⟩] }) ∨
      (cat ≠ "colors" ∧ cat ≠ "sizes" ∧ cat ≠ "types" ∧
        db2 = { db with patterns := db.patterns ++ [⟨code, nm⟩] })) := by
  unfold codeLibraryPOST at h
  by_cases h1 : code = "" ∨ nm = ""
  · rw [if_pos h1] at h; cases h
  · rw [if_neg h1] at h
    by_cases h2 : ¬ code.length = 2
    · rw [if_pos h2] at h; cases h
    · rw [if_neg h2] at h
      by_cases h3 : ¬ validCategory cat = true
      · rw [if_pos h3] at h; cases h
      · rw [if_neg h3] at h
        by_cases h4 : catHasCode db cat code = true
        · rw [if_pos h4] at h; cases h
        · rw [if_neg h4] at h
          refine ⟨h1, not_not.mp h2, not_not.mp h3, Bool.eq_false_iff.mpr h4, ?_⟩
          by_cases h5 : cat = "colors"
          · rw [if_pos h5] at h
            injection h with hh
            exact Or.inl ⟨h5, hh.symm⟩
          · rw [if_neg h5] at h
            by_cases h6 : cat = "sizes"
            · rw [if_pos h6] at h
              injection h with hh
              exact Or.inr (Or.inl ⟨h6, hh.symm⟩)
            · rw [if_neg h6] at h
              by_cases h7 : cat = "types"
              · rw [if_pos h7] at h
                injection h with hh
                exact Or.inr (Or.inr (Or.inl ⟨h7, hh.symm⟩))
              · rw [if_neg h7] at h
                injection h with hh
                exact Or.inr (Or.inr (Or.inr ⟨h5, h6, h7, hh.symm⟩))

theorem nodup_code_append {α : Type} (f : α → String) {l : List α} {x : α}
    (hnd : (l.map f).Nodup) (hni : ∀ e ∈ l, ¬ f e = f x) :
    ((l ++ [x]).map f).Nodup := by
  rw [List.map_append]
  refine List.Nodup.append hnd (List.nodup_singleton _) ?_
  intro a ha hb
  obtain ⟨e, he, rfl⟩ := List.mem_map.mp ha
  exact hni e he (by simpa using hb)

theorem find?_isSome_false {α : Type} {p : α → Bool} {l : List α}
    (h : (l.find? p).isSome = false) : ∀ e ∈ l, ¬ p e = true := by
  cases hf : l.find? p with
  | none => exact List.find?_eq_none.mp hf
  | some a => rw [hf] at h; cases h

theorem len_append_single {α : Type} (f : α → String) {l : List α} {x : α}
    (hl : ∀ e ∈ l, (f e).length = 2) (hx : (f x).length = 2) :
    ∀ e ∈ l ++ [x], (f e).length = 2 := by
  intro e he
  rcases List.mem_append.mp he with h1 | h2
  · exact hl e h1
  · rw [List.mem_singleton.mp h2]
    exact hx

theorem CatWF_codeLibraryPOST {db : DB} {cat code nm : String}
    {hx ab : Option String} {db2 : DB}
    (hwf : CatWF db) (h : codeLibraryPOST db cat code nm hx ab = .ok db2) :
    CatWF db2 := by
  obtain ⟨hmiss, hlen, hvc, hhas, hbr⟩ := codeLibraryPOST_ok h
  obtain ⟨w1, w2, w3, w4, n1, n2, n3, n4⟩ := hwf
  rcases hbr with ⟨hc, rfl⟩ | ⟨hc, rfl⟩ | ⟨hc, rfl⟩ | ⟨hc1, hc2, hc3, rfl⟩
  · subst hc
    have hhas2 : (db.colors.find? (fun c => c.code == code)).isSome = false := hhas
    have hni : ∀ e ∈ db.colors, ¬ (ColorEntry.code e) = code := by
      intro e he hp
      exact find?_isSome_false hhas2 e he (beq_iff_eq.mpr hp)
    exact ⟨w1, len_append_single _ w2 hlen, w3, w4, n1,
      nodup_code_append ColorEntry.code n2 hni, n3, n4⟩
  · subst hc
    have hhas2 : (db.sizes.find? (fun s => s.code == code)).isSome = false := hhas
    have hni : ∀ e ∈ db.sizes, ¬ (SizeEntry.code e) = code := by
      intro e he hp
      exact find?_isSome_false hhas2 e he (beq_iff_eq.mpr hp)
    exact ⟨w1, w2, w3, len_append_single _ w4 hlen, n1, n2, n3,
      nodup_code_append SizeEntry.code n4 hni⟩
  · subst hc
    have hhas2 : (db.types.find? (fun t => t.code == code)).isSome = false := hhas
    have hni : ∀ e ∈ db.types, ¬ (TypeEntry.code e) = code := by
      intro e he hp
      exact find?_isSome_false hhas2 e he (beq_iff_eq.mpr hp)
    exact ⟨len_append_single _ w1 hlen, w2, w3, w4,
      nodup_code_append TypeEntry.code n1 hni, n2, n3, n4⟩
  · have hcp : cat = "patterns" := by
      rcases validCategory_cases hvc with h1 | h1 | h1 | h1
      · exact absurd h1 hc3
      · exact absurd h1 hc1
      · exact h1
      · exact absurd h1 hc2
    subst hcp
    have hhas2 : (db.patterns.find? (fun p => p.code == code)).isSome = false := hhas
    have hni : ∀ e ∈ db.patterns, ¬ (PatternEntry.code e) = code := by
      intro e he hp
      exact find?_isSome_false hhas2 e he (beq_iff_eq.mpr hp)
    exact ⟨w1, w2, len_append_single _ w3 hlen, w4, n1, n2,
      nodup_code_append PatternEntry.code n3 hni, n4⟩

theorem nextSeq_eq_none {l : List InvRecord} (hne : l ≠ []) (hcap : 99 ≤ maxSeq l) :
    nextSeq l = none := by
  unfold nextSeq
  rw [if_neg (by simpa [List.isEmpty_iff] using hne), if_pos hcap]

theorem nodup_delete {db : DB} {sk : String} {db2 : DB}
    (hnd : (skus db).Nodup) (h : deleteInventorySku db sk = .ok db2) :
    (skus db2).Nodup := by
  unfold deleteInventorySku at h
  by_cases hex : db.inventory.any (fun r => r.sku == sk) = true
  · rw [if_pos hex] at h
    injection h with h2
    subst h2
    show (List.map _ (db.inventory.filter _)).Nodup
    exact List.Nodup.sublist ((List.filter_sublist _).map _) hnd
  · rw [if_neg hex] at h
    cases h

theorem removeCat_inventory {db : DB} {cat code : String}
    (hvc : validCategory cat = true) :
    (removeCat db cat code).inventory = db.inventory := by
  rcases validCategory_cases hvc with h | h | h | h <;> subst h <;> rfl

theorem codeLibraryDELETE_inuse {db : DB} {cat code : String}
    (hvc : validCategory cat = true) (hiu : 0 < inUseCount db cat code) :
    codeLibraryDELETE db cat code =
      .error (400, "Cannot delete: " ++ Nat.repr (inUseCount db cat code) ++
        " inventory item(s) use this code") := by
  unfold codeLibraryDELETE
  rw [if_neg (fun hh => hh hvc), if_pos hiu]

theorem codeLibraryDELETE_ok {db : DB} {cat code : String} {db2 : DB}
    (h : codeLibraryDELETE db cat code = .ok db2) :
    validCategory cat = true ∧ inUseCount db cat code = 0 ∧
      catHasCode db cat code = true ∧ db2 = removeCat db cat code := by
  unfold codeLibraryDELETE at h
  by_cases h1 : ¬ validCategory cat = true
  · rw [if_pos h1] at h; cases h
  · rw [if_neg h1] at h
    by_cases h2 : 0 < inUseCount db cat code
    · rw [if_pos h2] at h; cases h
    · rw [if_neg h2] at h
      by_cases h3 : catHasCode db cat code = true
      · rw [if_pos h3] at h
        injection h with hh
        exact ⟨not_not.mp h1, by omega, h3, hh.symm⟩
      · rw [if_neg h3] at h; cases h

theorem codeLibraryPOST_missing {db : DB} {cat code nm : String}
    {hx ab : Option String} (h : code = "" ∨ nm = "") :
    codeLibraryPOST db cat code nm hx ab = .error (400, "Code and name are required") := by
  unfold codeLibraryPOST
  rw [if_pos h]

theorem codeLibraryPOST_badlen {db : DB} {cat code nm : String}
    {hx ab : Option String} (h1 : ¬ (code = "" ∨ nm = "")) (h2 : code.length ≠ 2) :
    codeLibraryPOST db cat code nm hx ab =
      .error (400, "Code must be exactly 2 characters") := by
  unfold codeLibraryPOST
  rw [if_neg h1, if_pos h2]

theorem codeLibraryPOST_dup {db : DB} {cat code nm : String}
    {hx ab : Option String} (h1 : ¬ (code = "" ∨ nm = "")) (h2 : code.length = 2)
    (h3 : validCategory cat = true) (h4 : catHasCode db cat code = true) :
    codeLibraryPOST db cat code nm hx ab = .error (400, "Code already exists") := by
  unfold codeLibraryPOST
  rw [if_neg h1, if_neg (fun hh => hh h2), if_neg (fun hh => hh h3), if_pos h4]

/-- Concrete purchase date 2025-10-17. -/
def pd17 : PDate := ⟨2025, 10, 17⟩

/-- Concrete purchase date 2025-10-18. -/
def pd18 : PDate := ⟨2025, 10, 18⟩

/-- A small concrete catalog (Dress / Blue / Floral / Medium), empty ledger. -/
def cdb : DB :=
  { types := [⟨"DR", "Dress"⟩],
    colors := [⟨"BL", "Blue", some "#0000FF"⟩],
    patterns := [⟨"FL", "Floral"⟩],
    sizes := [⟨"MD", "Medium", "M", 1⟩],
    inventory := [] }

/-- The concrete allocation request of the spec's determinism property. -/
def creq : AllocReq :=
  { typeCode := "DR", colorCode := "BL", patternCode := "FL", sizeCode := "MD",
    purchaseDate := some pd17, purchaseCost := 10, sellingPrice := 25 }

/-- The record the first allocation of `creq` produces. -/
def citem1 : InvRecord :=
  { sku := "DRBLFLMD25101701", typeCode := "DR", colorCode := "BL",
    patternCode := "FL", sizeCode := "MD", dateCode := "251017",
    sequenceNum := "01", displayName := "Dress, Blue Floral, M",
    purchaseDate := pd17, purchaseCost := 10, sellingPrice := 25 }

/-- The record the second allocation of `creq` produces. -/
def citem2 : InvRecord :=
  { citem1 with sku := "DRBLFLMD25101702", sequenceNum := "02" }

/-- Ledger after the first allocation. -/
def cdb1 : DB := { cdb with inventory := [citem1] }

/-- Ledger after the second allocation. -/
def cdb2 : DB := { cdb with inventory := [citem2, citem1] }

/-- Request identical to `creq` but dated 2025-10-18. -/
def creq18 : AllocReq := { creq with purchaseDate := some pd18 }

/-- First allocation under the 2025-10-18 key. -/
def citem18 : InvRecord :=
  { citem1 with sku := "DRBLFLMD25101801", dateCode := "251018", purchaseDate := pd18 }

/-- Ledger holding `citem18` and `citem1`. -/
def cdb18 : DB := { cdb with inventory := [citem18, citem1] }

/-- A ledger whose only record under the key carries sequence number 09. -/
def citem09 : InvRecord := { citem1 with sku := "DRBLFLMD25101709", sequenceNum := "09" }

def cdb09 : DB := { cdb with inventory := [citem09] }

/-- The record allocated on top of `cdb09`: sequence number 10. -/
def citem10 : InvRecord := { citem1 with sku := "DRBLFLMD25101710", sequenceNum := "10" }

def cdb10 : DB := { cdb with inventory := [citem10, citem09] }

/-- A ledger whose only record under the key carries sequence number 99. -/
def citem99 : InvRecord := { citem1 with sku := "DRBLFLMD25101799", sequenceNum := "99" }

def cdb99 : DB := { cdb with inventory := [citem99] }

/-- C1: for every sequence of successful Allocate calls the returned
Identifiers are pairwise distinct, and the Identifiers persisted in the
Ledger stay pairwise distinct (primary-key uniqueness), the latter also
across inventory deletions. -/
theorem C1_uniqueness :
    (∀ (db : DB) (reqs : List AllocReq) (items : List InvRecord) (db2 : DB),
      (skus db).Nodup → runAllocs db reqs = some (items, db2) →
      (items.map (fun r => r.sku)).Nodup ∧ (skus db2).Nodup) ∧
    (∀ (db : DB) (sk : String) (db2 : DB),
      (skus db).Nodup → deleteInventorySku db sk = .ok db2 → (skus db2).Nodup) := by
  constructor
  · intro db reqs items db2 hnd h
    obtain ⟨h1, h2, -, -, -⟩ := runAllocs_nodup hnd h
    exact ⟨h2, h1⟩
  · intro db sk db2 hnd h
    exact nodup_delete hnd h

/-- C1 witness: two successful allocations from the concrete catalog
return distinct SKUs and leave a duplicate-free ledger. -/
theorem C1_uniqueness_witness :
    ([citem1, citem2].map (fun r => r.sku)).Nodup ∧ (skus cdb2).Nodup :=
  C1_uniqueness.1 cdb [creq, creq] [citem1, citem2] cdb2 (by decide) (by decide)

/-- C2 counterexample: an existing identifier shares the first 12
characters of the new allocation key, yet the issued sequence number is
"01", not max + 1 = "02" — the scope the code actually uses is the full
14-character base key, not a 12-character prefix. -/
theorem C2_counterexample :
    String.take citem1.sku 12 = "DRBLFLMD2510" ∧
    String.take (reqKey creq18 pd18) 12 = "DRBLFLMD2510" ∧
    allocatePOST cdb1 creq18 = .ok (citem18, cdb18) ∧
    citem18.sequenceNum = "01" ∧ ¬ citem18.sequenceNum = "02" := by decide

/-- C2 (amended to the actual 14-character AllocationKey): a successful
allocation issues "01" when no ledger identifier matches the full base
key, and otherwise the zero-padded numeric maximum of the parsed
sequence numbers plus one. -/
theorem C2_sequence :
    ∀ (db : DB) (req : AllocReq) (d : PDate) (item : InvRecord) (db2 : DB),
      req.purchaseDate = some d → allocatePOST db req = .ok (item, db2) →
      (matching db (reqKey req d) = [] → item.sequenceNum = "01") ∧
      (matching db (reqKey req d) ≠ [] →
        maxSeq (matching db (reqKey req d)) ≤ 98 ∧
        item.sequenceNum =
          padStart2 (Nat.repr (maxSeq (matching db (reqKey req d)) + 1))) := by
  intro db req d item db2 hd h
  obtain ⟨d2, sn, t, c, p, s, hmiss, hd2, hns, hres, hdup, hitem, hdb⟩ := allocateStep_ok h
  have hdd : d2 = d := by rw [hd] at hd2; exact Option.some_inj.mp hd2.symm
  subst hdd
  have hseq : item.sequenceNum = sn := by rw [hitem]; rfl
  rcases nextSeq_eq_some hns with ⟨hnil, rfl⟩ | ⟨hne, hle, rfl⟩
  · exact ⟨fun _ => by rw [hseq], fun hcon => absurd hnil hcon⟩
  · exact ⟨fun hcon => absurd hcon hne, fun _ => ⟨hle, by rw [hseq]⟩⟩

/-- C2 witness: on a ledger whose maximal sequence number under the key
is 09, the next allocation issues "10" — the numeric 9 → 10 transition. -/
theorem C2_sequence_witness :
    citem10.sequenceNum =
      padStart2 (Nat.repr (maxSeq (matching cdb09 (reqKey creq pd17)) + 1)) ∧
    citem10.sequenceNum = "10" :=
  ⟨((C2_sequence cdb09 creq pd17 citem10 cdb10 (by decide) (by decide)).2
      (by decide)).2, by decide⟩

/-- C3: when the maximum observed sequence number under the allocation
key is already at least 99, the call fails with the sequence-exhausted
error (no record is created: an error response performs no write in the
model, matching the route, which returns before `prisma.inventory.create`);
and in any well-formed ledger at most 99 identifiers share one
allocation key. -/
theorem C3_cap :
    (∀ (db : DB) (req : AllocReq) (d : PDate),
      ¬ MissingFields req → req.purchaseDate = some d →
      matching db (reqKey req d) ≠ [] →
      99 ≤ maxSeq (matching db (reqKey req d)) →
      allocatePOST db req =
        .error (400, "Maximum 99 items with same attributes per day reached")) ∧
    (∀ (db : DB) (K : String), WF db → K.length = 14 →
      (matching db K).length ≤ 99) := by
  constructor
  · intro db req d hmiss hd hne hcap
    exact allocateStep_cap hmiss hd (nextSeq_eq_none hne hcap)
  · intro db K hwf hK
    exact matching_count_le hwf hK

/-- C3 witness: with a record at sequence 99 under the key the concrete
allocation is refused with the cap error, and the two-record concrete
ledger satisfies the per-key bound. -/
theorem C3_cap_witness :
    allocatePOST cdb99 creq =
      .error (400, "Maximum 99 items with same attributes per day reached") ∧
    (matching cdb2 "DRBLFLMD251017").length ≤ 99 :=
  ⟨C3_cap.1 cdb99 creq pd17 (by decide) (by decide) (by decide) (by decide),
   C3_cap.2 cdb2 "DRBLFLMD251017" (by decide) (by decide)⟩

/-- A request whose four code fields do not resolve, yet whose
concatenated key equals "DRBLFLMD251017". -/
def creqBad : AllocReq :=
  { creq with typeCode := "D", colorCode := "RB", patternCode := "LF", sizeCode := "LMD" }

/-- A request with an unresolvable color code. -/
def creqBadColor : AllocReq := { creq with colorCode := "XX" }

/-- C4 counterexample: a call whose codes do not resolve fails with the
sequence-cap error, not the invalid-code error, because the route checks
the cap before the catalog lookups; so a call with an unresolvable code
does not always fail with the invalid-code error. -/
theorem C4_counterexample :
    resolveAll cdb99 creqBad = none ∧
    allocatePOST cdb99 creqBad =
      .error (400, "Maximum 99 items with same attributes per day reached") ∧
    ¬ allocatePOST cdb99 creqBad = .error (400, "Invalid code(s) provided") := by decide

/-- C4 (amended): a call with an unresolvable code never writes to the
Ledger (it never returns a created record); and when the required fields
are present and the sequence-cap path is not taken it fails with the
single generic error `(400, "Invalid code(s) provided")`, which does not
name the failing code or category. -/
theorem C4_invalid_codes :
    ∀ (db : DB) (req : AllocReq),
      resolveAll db req = none →
      (∀ (item : InvRecord) (db2 : DB), ¬ allocatePOST db req = .ok (item, db2)) ∧
      (∀ d : PDate, ¬ MissingFields req → req.purchaseDate = some d →
        ¬ nextSeq (matching db (reqKey req d)) = none →
        allocatePOST db req = .error (400, "Invalid code(s) provided")) := by
  intro db req hres
  constructor
  · intro item db2 hok
    obtain ⟨d, sn, t, c, p, s, -, -, -, hres2, -, -, -⟩ := allocateStep_ok hok
    rw [hres] at hres2
    cases hres2
  · intro d hmiss hd hns
    cases hns2 : nextSeq (matching db (reqKey req d)) with
    | none => exact absurd hns2 hns
    | some sn => exact allocateStep_invalidCodes hmiss hd hns2 hres

/-- C4 witness: an unresolvable color code on the concrete catalog
produces the generic invalid-code error. -/
theorem C4_invalid_codes_witness :
    allocatePOST cdb creqBadColor = .error (400, "Invalid code(s) provided") :=
  (C4_invalid_codes cdb creqBadColor (by decide)).2 pd17 (by decide) rfl (by decide)

/-- C5 counterexample: after allocating 01 and 02 and deleting the
record with sequence number 02, the next allocation under the same key
reissues sequence number 02 and the very same SKU — deletion of the
maximal record does free its sequence number. -/
theorem C5_counterexample :
    allocatePOST cdb creq = .ok (citem1, cdb1) ∧
    allocatePOST cdb1 creq = .ok (citem2, cdb2) ∧
    deleteInventorySku cdb2 citem2.sku = .ok cdb1 ∧
    allocatePOST cdb1 creq = .ok (citem2, cdb2) ∧
    citem2.sequenceNum = "02" := by decide

/-- C5 (amended): starting from a ledger with no identifier under the
key, N consecutive successful allocations sharing that key return the
sequence numbers 01..0N in issuance order with no gaps; a deleted
record's sequence number can be reissued when it exceeds every remaining
sequence number under the key. -/
theorem C5_monotonic :
    ∀ (db : DB) (K : String) (reqs : List AllocReq) (items : List InvRecord) (db2 : DB),
      WF db → (∀ r ∈ reqs, ReqKeyed K r) → matching db K = [] →
      runAllocs db reqs = some (items, db2) →
      items.map (fun r => r.sequenceNum) =
        (List.range' 1 reqs.length).map (fun n => padStart2 (Nat.repr n)) := by
  intro db K reqs items db2 hwf hk hempty h
  have hrun := (runAllocs_keyed hwf hk h).2.1
  have h0 : maxSeq ([] : List InvRecord) + 1 = 1 := rfl
  rw [hempty, h0] at hrun
  exact hrun

/-- C5 witness: two consecutive allocations from the fresh concrete key
return exactly ["01", "02"]. -/
theorem C5_monotonic_witness :
    [citem1, citem2].map (fun r => r.sequenceNum) =
      (List.range' 1 ([creq, creq] : List AllocReq).length).map
        (fun n => padStart2 (Nat.repr n)) :=
  C5_monotonic cdb "DRBLFLMD251017" [creq, creq] [citem1, citem2] cdb2
    (by decide)
    (by
      intro r hr
      have hrc : r = creq := by
        rcases List.mem_cons.mp hr with h | h
        · exact h
        · simpa using h
      rw [hrc]
      exact ⟨pd17, rfl, by decide, by decide⟩)
    (by decide) (by decide)

/-- C6 counterexample: a write snapshot already holding the computed SKU
(the effect of a concurrent insert between the route's read and its
insert) makes the call fail immediately with the generic 500 create
error — no retry, no distinct concurrency error. -/
theorem C6_counterexample :
    cdb1.inventory.any (fun r => r.sku == reqKey creq pd17 ++ "01") = true ∧
    allocateStep cdb cdb1 creq = .error (500, "Failed to create inventory item") := by
  decide

/-- C6 (amended): whenever the insert of the computed identifier is
rejected as a duplicate, the route surfaces the single failed attempt to
the caller as the generic `(500, "Failed to create inventory item")`
response; it performs no retry of the sequence-number computation and no
`ConcurrentAllocationConflict` error exists. -/
theorem C6_no_retry :
    ∀ (dbR dbW : DB) (req : AllocReq) (d : PDate) (sn : String)
      (tcps : TypeEntry × ColorEntry × PatternEntry × SizeEntry),
      ¬ MissingFields req → req.purchaseDate = some d →
      nextSeq (matching dbR (reqKey req d)) = some sn →
      resolveAll dbR req = some tcps →
      dbW.inventory.any (fun r => r.sku == reqKey req d ++ sn) = true →
      allocateStep dbR dbW req = .error (500, "Failed to create inventory item") := by
  intro dbR dbW req d sn tcps hmiss hd hns hres hdup
  exact allocateStep_dup hmiss hd hns hres hdup

/-- C6 witness: the concrete duplicate-insert interleaving surfaces the
generic 500 create error. -/
theorem C6_no_retry_witness :
    allocateStep cdb cdb1 creq = .error (500, "Failed to create inventory item") :=
  C6_no_retry cdb cdb1 creq pd17 "01"
    (⟨"DR", "Dress"⟩, ⟨"BL", "Blue", some "#0000FF"⟩, ⟨"FL", "Floral"⟩,
      ⟨"MD", "Medium", "M", 1⟩)
    (by decide) rfl (by decide) (by decide) (by decide)

/-- C7: the date segment of 2025-10-17 is "251017"; with codes DR, BL,
FL, MD the allocation key is "DRBLFLMD251017"; and when no prior ledger
identifier shares that key, a successful allocation returns the
identifier "DRBLFLMD25101701". -/
theorem C7_determinism :
    mkDateCode pd17 = "251017" ∧
    (∀ req : AllocReq, req.typeCode = "DR" → req.colorCode = "BL" →
      req.patternCode = "FL" → req.sizeCode = "MD" →
      reqKey req pd17 = "DRBLFLMD251017") ∧
    (∀ (db : DB) (req : AllocReq) (item : InvRecord) (db2 : DB),
      req.typeCode = "DR" → req.colorCode = "BL" → req.patternCode = "FL" →
      req.sizeCode = "MD" → req.purchaseDate = some pd17 →
      matching db "DRBLFLMD251017" = [] →
      allocatePOST db req = .ok (item, db2) →
      item.sku = "DRBLFLMD25101701") := by
  refine ⟨by decide, ?_, ?_⟩
  · intro req h1 h2 h3 h4
    unfold reqKey
    rw [h1, h2, h3, h4]
    decide
  · intro db req item db2 h1 h2 h3 h4 hd hempty hok
    obtain ⟨d2, sn, t, c, p, s, hmiss, hd2, hns, hres, hdup, hitem, hdb⟩ :=
      allocateStep_ok hok
    have hdd : d2 = pd17 := by rw [hd] at hd2; exact Option.some_inj.mp hd2.symm
    subst hdd
    have hkey : reqKey req pd17 = "DRBLFLMD251017" := by
      unfold reqKey
      rw [h1, h2, h3, h4]
      decide
    rw [hkey, hempty] at hns
    have hcomp : nextSeq ([] : List InvRecord) = some "01" := by decide
    have hsn : sn = "01" := (Option.some_inj.mp (hcomp.symm.trans hns)).symm
    rw [hitem]
    show reqKey req pd17 ++ sn = _
    rw [hkey, hsn]
    decide

/-- C7 witness: the concrete first allocation returns exactly
"DRBLFLMD25101701". -/
theorem C7_determinism_witness : citem1.sku = "DRBLFLMD25101701" :=
  C7_determinism.2.2 cdb creq citem1 cdb1 rfl rfl rfl rfl rfl (by decide) (by decide)

/-- `creq` with cost zero (falsy in JS). -/
def creq0 : AllocReq := { creq with purchaseCost := 0 }

/-- `creq` with a negative cost. -/
def creqNeg : AllocReq := { creq with purchaseCost := -5 }

/-- The record persisted for the negative-cost request. -/
def citemNeg : InvRecord := { citem1 with purchaseCost := -5 }

def cdbNeg : DB := { cdb with inventory := [citemNeg] }

/-- C8 counterexample: a cost of zero — a finite, non-negative amount
the claim says is accepted — is rejected by the JS-truthiness guard as a
missing field, while a negative cost — which the claim says fails with
InvalidAmount — is accepted and persisted as −5. -/
theorem C8_counterexample :
    allocatePOST cdb creq0 = .error (400, "Missing required fields") ∧
    allocatePOST cdb creqNeg = .ok (citemNeg, cdbNeg) ∧
    citemNeg.purchaseCost = -5 := by decide

/-- C8 (amended): a zero (or absent) cost or price fails the
required-field guard with `(400, "Missing required fields")` and nothing
is persisted; any call that passes the guard persists cost and price
exactly as given, with no further amount validation (negative values
included) — no InvalidAmount error exists. -/
theorem C8_amount :
    (∀ (db : DB) (req : AllocReq),
      req.purchaseCost = 0 ∨ req.sellingPrice = 0 →
      allocatePOST db req = .error (400, "Missing required fields")) ∧
    (∀ (db : DB) (req : AllocReq) (item : InvRecord) (db2 : DB),
      allocatePOST db req = .ok (item, db2) →
      item.purchaseCost = req.purchaseCost ∧
        item.sellingPrice = req.sellingPrice) := by
  constructor
  · intro db req h
    apply allocateStep_missing
    unfold MissingFields
    rcases h with h | h
    · exact Or.inr (Or.inr (Or.inr (Or.inr (Or.inr (Or.inl h)))))
    · exact Or.inr (Or.inr (Or.inr (Or.inr (Or.inr (Or.inr h)))))
  · intro db req item db2 h
    obtain ⟨d, sn, t, c, p, s, -, -, -, -, -, hitem, -⟩ := allocateStep_ok h
    rw [hitem]
    exact ⟨rfl, rfl⟩

/-- C8 witness: the zero-cost request is refused as missing fields; the
negative-cost request goes through and its amounts are stored verbatim. -/
theorem C8_amount_witness :
    allocatePOST cdb creq0 = .error (400, "Missing required fields") ∧
    (citemNeg.purchaseCost = creqNeg.purchaseCost ∧
      citemNeg.sellingPrice = creqNeg.sellingPrice) :=
  ⟨C8_amount.1 cdb creq0 (Or.inl (by decide)),
   C8_amount.2 cdb creqNeg citemNeg cdbNeg (by decide)⟩

/-- C9: deleting an attribute code that inventory records still
reference is rejected with the counting error message and nothing
changes (an error response performs no write); a deletion succeeds only
when no inventory record references the code, and then it only removes
that catalog entry, leaving the inventory untouched. -/
theorem C9_referential :
    (∀ (db : DB) (cat code : String), validCategory cat = true →
      0 < inUseCount db cat code →
      codeLibraryDELETE db cat code =
        .error (400, "Cannot delete: " ++ Nat.repr (inUseCount db cat code) ++
          " inventory item(s) use this code")) ∧
    (∀ (db : DB) (cat code : String) (db2 : DB),
      codeLibraryDELETE db cat code = .ok db2 →
      inUseCount db cat code = 0 ∧ db2 = removeCat db cat code ∧
        db2.inventory = db.inventory) := by
  constructor
  · intro db cat code hvc hiu
    exact codeLibraryDELETE_inuse hvc hiu
  · intro db cat code db2 h
    obtain ⟨hvc, hcnt, hhas, hdb⟩ := codeLibraryDELETE_ok h
    refine ⟨hcnt, hdb, ?_⟩
    rw [hdb]
    exact removeCat_inventory hvc

/-- The concrete catalog with color BL removed. -/
def cdbBLdel : DB := { cdb with colors := [] }

/-- C9 witness: with two records referencing color BL the deletion is
refused; on the empty ledger the deletion succeeds and removes exactly
the BL entry. -/
theorem C9_referential_witness :
    codeLibraryDELETE cdb2 "colors" "BL" =
      .error (400, "Cannot delete: " ++ Nat.repr (inUseCount cdb2 "colors" "BL") ++
        " inventory item(s) use this code") ∧
    (inUseCount cdb "colors" "BL" = 0 ∧ cdbBLdel = removeCat cdb "colors" "BL" ∧
      cdbBLdel.inventory = cdb.inventory) :=
  ⟨C9_referential.1 cdb2 "colors" "BL" (by decide) (by decide),
   C9_referential.2 cdb "colors" "BL" cdbBLdel (by decide)⟩

/-- C10 counterexample: the real lengths are 14 and 16, not 12 and 14 —
the concrete allocation key "DRBLFLMD251017" has 14 characters and the
first identifier "DRBLFLMD25101701" has 16. -/
theorem C10_counterexample :
    allocatePOST cdb creq = .ok (citem1, cdb1) ∧
    (reqKey creq pd17).length = 14 ∧ ¬ (reqKey creq pd17).length = 12 ∧
    citem1.sku.length = 16 ∧ ¬ citem1.sku.length = 14 := by decide

/-- The concrete catalog after adding color TL. -/
def cdbTL : DB := { cdb with colors := cdb.colors ++ [⟨"TL", "Teal", none⟩] }

/-- C10 (amended): a code-library POST with a missing code, a code whose
length is not 2, or a code already present in the category is rejected
and creates nothing; every successful POST preserves the catalog-shape
invariant (codes of length exactly 2, unique within their category);
consequently, on a well-formed database every allocation key has 14
characters and every issued identifier 16 (not 12 and 14). -/
theorem C10_catalog_shape :
    (∀ (db : DB) (cat code nm : String) (hx ab : Option String),
      code = "" →
      codeLibraryPOST db cat code nm hx ab =
        .error (400, "Code and name are required")) ∧
    (∀ (db : DB) (cat code nm : String) (hx ab : Option String),
      ¬ (code = "" ∨ nm = "") → code.length ≠ 2 →
      codeLibraryPOST db cat code nm hx ab =
        .error (400, "Code must be exactly 2 characters")) ∧
    (∀ (db : DB) (cat code nm : String) (hx ab : Option String),
      ¬ (code = "" ∨ nm = "") → code.length = 2 → validCategory cat = true →
      catHasCode db cat code = true →
      codeLibraryPOST db cat code nm hx ab = .error (400, "Code already exists")) ∧
    (∀ (db : DB) (cat code nm : String) (hx ab : Option String) (db2 : DB),
      CatWF db → codeLibraryPOST db cat code nm hx ab = .ok db2 → CatWF db2) ∧
    (∀ (db : DB) (req : AllocReq) (d : PDate) (item : InvRecord) (db2 : DB),
      WF db → req.purchaseDate = some d → ValidPDate d →
      allocatePOST db req = .ok (item, db2) →
      (reqKey req d).length = 14 ∧ item.sku.length = 16) := by
  refine ⟨?_, ?_, ?_, ?_, ?_⟩
  · intro db cat code nm hx ab h
    exact codeLibraryPOST_missing (Or.inl h)
  · intro db cat code nm hx ab h1 h2
    exact codeLibraryPOST_badlen h1 h2
  · intro db cat code nm hx ab h1 h2 h3 h4
    exact codeLibraryPOST_dup h1 h2 h3 h4
  · intro db cat code nm hx ab db2 hwf h
    exact CatWF_codeLibraryPOST hwf h
  · intro db req d item db2 hwf hd hvd hok
    obtain ⟨d2, sn, t, c, p, s, hmiss, hd2, hns, hres, hdup, hitem, hdb⟩ :=
      allocateStep_ok hok
    have hdd : d2 = d := by rw [hd] at hd2; exact Option.some_inj.mp hd2.symm
    rw [hdd] at hns hitem
    obtain ⟨l1, l2, l3, l4⟩ := req_code_lengths hwf hres
    have hkey : (reqKey req d).length = 14 := reqKey_length l1 l2 l3 l4 hvd
    obtain ⟨n, -, hn2, rfl⟩ := nextSeq_shape hns
    refine ⟨hkey, ?_⟩
    rw [hitem]
    show (reqKey req d ++ padStart2 (Nat.repr n)).length = 16
    rw [String.length_append, hkey, padStart2_repr_length hn2]

/-- C10 witness: the three concrete rejections, a successful concrete
create preserving the catalog invariant, and the concrete 14/16 lengths. -/
theorem C10_catalog_shape_witness :
    codeLibraryPOST cdb "colors" "" "Teal" none none =
      .error (400, "Code and name are required") ∧
    codeLibraryPOST cdb "colors" "TEA" "Teal" none none =
      .error (400, "Code must be exactly 2 characters") ∧
    codeLibraryPOST cdb "colors" "BL" "Blue2" none none =
      .error (400, "Code already exists") ∧
    CatWF cdbTL ∧
    ((reqKey creq pd17).length = 14 ∧ citem1.sku.length = 16) :=
  ⟨C10_catalog_shape.1 cdb "colors" "" "Teal" none none rfl,
   C10_catalog_shape.2.1 cdb "colors" "TEA" "Teal" none none (by decide) (by decide),
   C10_catalog_shape.2.2.1 cdb "colors" "BL" "Blue2" none none (by decide) (by decide)
     (by decide) (by decide),
   C10_catalog_shape.2.2.2.1 cdb "colors" "TL" "Teal" none none cdbTL (by decide)
     (by decide),
   C10_catalog_shape.2.2.2.2 cdb creq pd17 citem1 cdb1 (by decide) rfl (by decide)
     (by decide)⟩
